import Mathlib

/-!
Verification development for the `guess` utility (guess.go and the earlier
prototype source referred to here as P1).  The Go code is embedded shallowly:
machine integers become `Int`/`Nat` with explicit two's-complement wrap where Go
would overflow, IEEE-754 `float64` arithmetic is modelled exactly by dyadic
rationals with 53-bit round-to-nearest-even mantissas, and the external `time`
package's textual renderings (which no claim inspects) are abstracted to
injective placeholder strings.
-/

set_option maxRecDepth 10000

/-- Fuelled floor base-2 logarithm.  Structurally recursive in the fuel so that
closed instances reduce inside the kernel; `nlog2 n` supplies fuel `n`, which is
always enough since the argument halves each step. -/
def log2fuel : Nat → Nat → Nat
  | 0, _ => 0
  | fuel + 1, n => if n < 2 then 0 else log2fuel fuel (n / 2) + 1

/-- Floor base-2 logarithm of a natural number (`nlog2 0 = 0`). -/
def nlog2 (n : Nat) : Nat := log2fuel n n

/-- A binary floating-point value `m * 2 ^ e`.  Every IEEE-754 double the Go
code manipulates is representable exactly in this form with `m.natAbs` either 0
or (when normalised) in `[2^52, 2^53)`.  Overflow to infinity and subnormals
never occur at the magnitudes the program computes, so they are not modelled. -/
structure F where
  m : Int
  e : Int
deriving Repr, DecidableEq

/-- Round a nonnegative exact value `M * 2 ^ e` to 53 significant bits,
round-to-nearest with ties to even, as IEEE-754 double rounding does.  Values
already below `2 ^ 53` are exact and kept unchanged. -/
def normFNat (M : Nat) (e : Int) : F :=
  if M < 2 ^ 53 then ⟨(M : Int), e⟩
  else
    let s := nlog2 M - 52
    let u := 2 ^ s
    let m0 := M / u
    let r := M % u
    let m1 := if 2 * r < u then m0 else if u < 2 * r then m0 + 1
      else if m0 % 2 = 0 then m0 else m0 + 1
    if m1 < 2 ^ 53 then ⟨(m1 : Int), e + (s : Int)⟩
    else ⟨((m1 / 2 : Nat) : Int), e + (s : Int) + 1⟩

/-- The IEEE-754 double nearest to a natural number, i.e. Go's
`float64(n)` conversion for a nonnegative integer; normalised so the mantissa
lies in `[2^52, 2^53)` for nonzero inputs. -/
def f64n (n : Nat) : F :=
  if n = 0 then ⟨0, 0⟩
  else if n < 2 ^ 53 then
    let s := 52 - nlog2 n
    ⟨((n * 2 ^ s : Nat) : Int), -(s : Int)⟩
  else normFNat n 0

/-- Go's `float64(n)` conversion for a signed integer. -/
def f64i (n : Int) : F :=
  if n < 0 then
    let f := f64n (-n).toNat
    ⟨-f.m, f.e⟩
  else f64n n.toNat

/-- Correctly rounded (nearest, ties to even) quotient of two normalised
53-bit mantissas `A, B` in `[2^52, 2^53)`; returns the rounded mantissa and the
binary-exponent adjustment. -/
def divMag (A B : Nat) : Nat × Int :=
  let s : Nat := if A * 2 ^ 53 / B < 2 ^ 53 then 53 else 52
  let num := A * 2 ^ s
  let m0 := num / B
  let r := num % B
  let m1 := if 2 * r < B then m0 else if B < 2 * r then m0 + 1
    else if m0 % 2 = 0 then m0 else m0 + 1
  if m1 < 2 ^ 53 then (m1, -(s : Int)) else (2 ^ 52, -(s : Int) + 1)

/-- IEEE-754 double division of two normalised doubles (Go's `/` on
`float64`).  Division by zero never occurs in the embedded code (all divisors
are fixed nonzero unit constants), so it is mapped to zero here. -/
def fdivF (a b : F) : F :=
  if a.m = 0 ∨ b.m = 0 then ⟨0, 0⟩
  else
    let p := divMag a.m.natAbs b.m.natAbs
    let sgn : Int := if (a.m < 0) = (b.m < 0) then 1 else -1
    ⟨sgn * (p.1 : Int), a.e - b.e + p.2⟩

/-- IEEE-754 double addition (Go's `+` on `float64`): the exact sum of the two
dyadic values rounded to 53 significant bits, ties to even. -/
def addF (a b : F) : F :=
  if a.m = 0 then b
  else if b.m = 0 then a
  else
    let e0 := min a.e b.e
    let M : Int := a.m * 2 ^ (a.e - e0).toNat + b.m * 2 ^ (b.e - e0).toNat
    if M < 0 then
      let f := normFNat (-M).toNat e0
      ⟨-f.m, f.e⟩
    else normFNat M.toNat e0

/-- Strict comparison of two dyadic float values (Go's `<` on `float64`). -/
def flt (a b : F) : Bool :=
  if a.e ≤ b.e then decide (a.m < b.m * 2 ^ (b.e - a.e).toNat)
  else decide (a.m * 2 ^ (a.e - b.e).toNat < b.m)

/-- Truncation of a double toward zero, Go's `int(x)` conversion. -/
def truncF (f : F) : Int :=
  let t : Nat := if 0 ≤ f.e then f.m.natAbs * 2 ^ f.e.toNat
    else f.m.natAbs / 2 ^ (-f.e).toNat
  if f.m < 0 then -(t : Int) else (t : Int)

/-- Decimal rendering of the nonnegative dyadic value `m * 2 ^ e` with one
fractional digit, rounding to nearest with ties to even, as Go's `%.1f`
formatting of a double does (Go formats the exact binary value correctly
rounded to the requested number of decimals). -/
def fmtMag1 (m : Nat) (e : Int) : String :=
  let t : Nat :=
    if 0 ≤ e then 10 * m * 2 ^ e.toNat
    else
      let d := 2 ^ (-e).toNat
      let x := 10 * m
      let m0 := x / d
      let r := x % d
      if 2 * r < d then m0 else if d < 2 * r then m0 + 1
      else if m0 % 2 = 0 then m0 else m0 + 1
  toString (t / 10) ++ "." ++ toString (t % 10)

/-- Go's `%.1f` formatting of a double. -/
def fmtF1 (f : F) : String :=
  if f.m < 0 then "-" ++ fmtMag1 f.m.natAbs f.e else fmtMag1 f.m.natAbs f.e

/-- Two's-complement wrap of a mathematical integer into `int64`, the value a
Go `int64` multiplication or addition actually produces on overflow. -/
def wrap64 (x : Int) : Int := (x + 2 ^ 63) % 2 ^ 64 - 2 ^ 63

/-- The double constant `1` (exact). -/
def oneF : F := f64i 1

/-- The record a guesser produces, from guess.go:80-85 (`type Guess struct`).
Field `guess` is the primary rendering, `comment` the optional qualifier,
`additional` the context lines, `source` the provenance tag and `goodness` the
signed plausibility score. -/
structure Guess where
  guess : String
  comment : String
  additional : List String
  source : String
  goodness : Int
deriving Repr, DecidableEq

/-- One row of the unit table `byteUnits` (guess.go:59-70): binary multiplier,
decimal multiplier, binary symbol, decimal symbol and short alias. -/
structure ByteUnit where
  mult : Nat
  altMult : Nat
  sym : String
  altSym : String
  aliasSym : String
deriving Repr, DecidableEq

/-- The unit table from guess.go:59-70. -/
def byteUnits : List ByteUnit :=
  [⟨1024, 1000, "KiB", "KB", "K"⟩,
   ⟨1024 * 1024, 1000 * 1000, "MiB", "MB", "M"⟩,
   ⟨1024 * 1024 * 1024, 1000 * 1000 * 1000, "GiB", "GB", "G"⟩,
   ⟨1024 * 1024 * 1024 * 1024, 1000 * 1000 * 1000 * 1000, "TiB", "TB", "T"⟩,
   ⟨1024 * 1024 * 1024 * 1024 * 1024, 1000 * 1000 * 1000 * 1000 * 1000, "PiB", "PB", "P"⟩,
   ⟨1024 * 1024 * 1024 * 1024 * 1024 * 1024,
    1000 * 1000 * 1000 * 1000 * 1000 * 1000, "EiB", "EB", "E"⟩]

/-- One line of `bytesInfo` (guess.go:283): the Go format string
`"%.1f %s (%.1f %s)"` applied to the binary-form and decimal-form quotients,
both computed in `float64`. -/
def unitLine (n : Int) (u : ByteUnit) : String :=
  fmtF1 (fdivF (f64i n) (f64i (u.mult : Int))) ++ " " ++ u.sym ++ " (" ++
    fmtF1 (fdivF (f64i n) (f64i (u.altMult : Int))) ++ " " ++ u.altSym ++ ")"

/-- Embedding of `bytesInfo` (guess.go:275-287): for each unit the `float64`
quotient `q := float64(n) / float64(u.altMult)` is computed and the unit is
skipped when `q < 1`; otherwise the formatted line is appended. -/
def bytesInfo (n : Int) : List String :=
  byteUnits.foldl
    (fun lines u =>
      if flt (fdivF (f64i n) (f64i (u.altMult : Int))) oneF then lines
      else lines ++ [unitLine n u])
    []

/-- Embedding of `guessByteSize` (guess.go:267-273). -/
def guessByteSize (n : Int) : List Guess :=
  [{ guess := toString n ++ " bytes", comment := "", additional := bytesInfo n,
     source := "byte count without explicit unit", goodness := 0 }]

/-- Longest byte length of the lines of `left`, the `maxlen` accumulation of
`sideBySide` (guess.go:512-517).  Go's `len` counts bytes; Lean's
`String.length` counts characters, which agree on the ASCII lines the program
builds. -/
def maxlen (left : List String) : Nat := left.foldl (fun m l => max m l.length) 0

/-- A run of `n` spaces, Go's `strings.Repeat(" ", n)`. -/
def spaces (n : Nat) : String := String.mk (List.replicate n ' ')

/-- Embedding of `sideBySide` (guess.go:511-539): if every left line is empty
(`maxlen == 0`) the right block is returned unchanged; otherwise line `i` of
the output is `left[i]` alone when the right block is exhausted, and otherwise
`left[i]` (or `""` past the end of `left`) padded to `maxlen + 4` columns
followed by `right[i]`. -/
def sideBySide (left right : List String) : List String :=
  if maxlen left = 0 then right
  else
    (List.range (max left.length right.length)).map (fun i =>
      if right.length ≤ i then left.getD i ""
      else
        let l := left.getD i ""
        l ++ spaces (4 + maxlen left - l.length) ++ right.getD i "")

/-- Go's `ByGoodness.Less` (guess.go:108): guess `a` sorts strictly before
guess `b` exactly when `a.goodness > b.goodness`. -/
def byGoodnessLess (a b : Guess) : Bool := decide (b.goodness < a.goodness)

/-- One step of the insertion sort that Go's `sort.Sort` performs on short
slices: insert `x` into an already descending-sorted list, after every element
with goodness greater than or equal to `x`'s. -/
def insertGo (x : Guess) : List Guess → List Guess
  | [] => [x]
  | y :: ys => if byGoodnessLess x y then x :: y :: ys else y :: insertGo x ys

/-- Insertion sort over the whole slice, left to right, as Go's `sort.Sort`
executes it for slices of at most 12 elements (the pdqsort driver hands any
such slice directly to `insertionSort`; the guess lists this program builds
never exceed about six entries).  For longer slices `sort.Sort` switches to an
unstable quicksort, which is why the ranking theorem below carries an explicit
length bound. -/
def sortGo (gs : List Guess) : List Guess := gs.foldl (fun acc x => insertGo x acc) []

/-- The ranking step of `main` (guess.go:571-573): `sort.Sort(ByGoodness(gs))`
when sorting is enabled, the discovery order unchanged otherwise. -/
def rankGuesses (sortEnabled : Bool) (gs : List Guess) : List Guess :=
  if sortEnabled then sortGo gs else gs

/-- The presentation loop of `main` (guess.go:574-586): the shown list keeps
guesses passing `printUnlikely || goodness >= 0`; if nothing was shown and the
unlikely flag is off, an explanatory note is emitted (first component `true`)
followed by the complete unfiltered list. -/
def mainDisplay (printUnlikely : Bool) (gs : List Guess) : Bool × List Guess :=
  let shown := gs.filter (fun g => printUnlikely || decide (0 ≤ g.goodness))
  if printUnlikely = false ∧ shown = [] then (true, gs) else (false, shown)

/-- A configured time zone, modelling what the embedded code needs of the Go
`time.Location` values loaded at startup: its name, the abbreviation it uses at
a given instant (`time.Now().In(loc).Zone()`), and the fixed UTC offset in
seconds that `time.ParseInLocation` assigns to an abbreviation known to the
zone (an unknown abbreviation yields a fabricated zero offset, hence the
`Option`). -/
structure Location where
  name : String
  abbrAt : Int → String
  offForAbbr : String → Option Int

/-- Abstract stand-in for the external `time.Time.String()` rendering of the
instant `t` (nanoseconds since the epoch).  No claim inspects its text, so it
is modelled as an injective placeholder. -/
def timeString (t : Int) : String := "time " ++ toString t

/-- Abstract stand-in for `t.In(loc).String()`, the zone-shifted rendering used
by `differentTZs`; injective in the instant, text otherwise uninterpreted. -/
def timeStringAt (loc : Location) (t : Int) : String :=
  "time " ++ toString t ++ " @ " ++ loc.name

/-- Embedding of `differentTZs` (guess.go:417-423): one line
`"<rendering> (<zone name>)"` per configured zone. -/
def differentTZs (tzs : List Location) (t : Int) : List String :=
  tzs.map (fun loc => timeStringAt loc t ++ " (" ++ loc.name ++ ")")

/-- Stand-in for `calendar` (guess.go:433-485), which renders the ASCII month
grid for the instant's month.  No claim inspects the grid's lines (only
whether the block is attached), so the block is abstracted to a single
placeholder line tagged with the instant.  The function's internal
`time.Now()` read is used only for cosmetic highlighting of today's cell and
is accounted for separately in the clock-threaded embedding below. -/
def calendar (t : Int) : List String := ["[month grid for " ++ toString t ++ "]"]

/-- Absolute difference between the current instant and `t`, the duration `d`
computed at the top of `deltaNow` (guess.go:319-326). -/
def absDelta (now t : Int) : Int := if now < t then t - now else now - t

/-- The rough-bucket prefix chosen by the `interv` loop of `deltaNow`
(guess.go:331-347): the first interval strictly exceeding `d` names the
bucket; a week or more yields no prefix. -/
def roughly (d : Int) : String :=
  if d < 60000000000 then "within the minute, "
  else if d < 3600000000000 then "within the hour, "
  else if d < 86400000000000 then "within the day, "
  else if d < 604800000000000 then "within the week, "
  else ""

/-- Go's `Duration.Hours()`: `float64(d / Hour) + float64(d % Hour) / 3.6e12`,
both operations in `float64`.  The embedded durations are nonnegative. -/
def durHours (d : Int) : F :=
  addF (f64n (d.natAbs / 3600000000000))
    (fdivF (f64n (d.natAbs % 3600000000000)) (f64n 3600000000000))

/-- Go's `Duration.Minutes()`. -/
def durMinutes (d : Int) : F :=
  addF (f64n (d.natAbs / 60000000000))
    (fdivF (f64n (d.natAbs % 60000000000)) (f64n 60000000000))

/-- Go's `Duration.Seconds()`. -/
def durSeconds (d : Int) : F :=
  addF (f64n (d.natAbs / 1000000000))
    (fdivF (f64n (d.natAbs % 1000000000)) (f64n 1000000000))

/-- Embedding of `deltaNow` (guess.go:315-371) split into its three results:
the returned duration, the rough prefix, and the exact breakdown (including
the direction suffix).  The source reads `time.Now()` itself; the embedding
takes that read as the explicit argument `now`.  A delta under one second
returns duration 0 and the narrative "right now".  The day count mirrors the
`for hours >= 24` subtraction loop, i.e. div/mod by 24 on the nonnegative hour
count, and the hour/minute/second counts truncate the `float64` conversions
exactly as `int(d.Hours())` etc. do. -/
def deltaNowParts (now t : Int) : Int × String × String :=
  let suff := if now < t then "ahead" else "ago"
  let d := absDelta now t
  if d < 1000000000 then (0, "", "right now")
  else
    let hours0 := truncF (durHours d)
    let minutes0 := truncF (durMinutes d) - 60 * hours0
    let seconds0 := truncF (durSeconds d) - 3600 * hours0 - 60 * minutes0
    let days : Int := ((hours0.natAbs / 24 : Nat) : Int)
    let hoursR : Int := ((hours0.natAbs % 24 : Nat) : Int)
    let plural : Int → String := fun n => if 1 < n then "s" else ""
    let e1 := suff
    let e2 := if seconds0 = 0 then e1
      else toString seconds0 ++ " second" ++ plural seconds0 ++ " " ++ e1
    let e3 := if minutes0 = 0 then e2
      else toString minutes0 ++ " minute" ++ plural minutes0 ++ " " ++ e2
    let e4 := if hoursR = 0 then e3
      else toString hoursR ++ " hour" ++ plural hoursR ++ " " ++ e3
    let e5 := if days = 0 then e4
      else toString days ++ " day" ++ plural days ++ " " ++ e4
    (d, roughly d, e5)

/-- The pair `deltaNow` returns: the duration and the narrative
`roughly + exact`. -/
def deltaNow (now t : Int) : Int × String :=
  ((deltaNowParts now t).1, (deltaNowParts now t).2.1 ++ (deltaNowParts now t).2.2)

/-- The `(good, wanttzs, wantcal)` triple computed by the switch in `dateGuess`
(guess.go:375-397).  `good` starts at -10, `wantcal` at `false` and `wanttzs`
at `true`; note that no branch ever sets `wanttzs` to `false`, so the zone
table is requested for every delta. -/
def dateGuessFlags (d : Int) : Int × Bool × Bool :=
  if d < 60000000000 then (200, true, false)
  else if d < 3600000000000 then (180, true, false)
  else if d < 86400000000000 then (150, true, false)
  else if d < 604800000000000 then (120, true, true)
  else if d < 31536000000000000 then (20, true, true)
  else if d < 157680000000000000 then (0, true, false)
  else (-10, true, false)

/-- Embedding of `dateGuess` (guess.go:373-415): the relative-time narrative
becomes the comment, the zone table (header, per-zone conversions, UNIX
timestamp) and the calendar block are attached according to the flags and
merged with `sideBySide`.  `t.Unix()` is floor division of the nanosecond
instant by 1e9. -/
def dateGuess (tzs : List Location) (now t : Int) : Guess :=
  let p := deltaNowParts now t
  let flags := dateGuessFlags p.1
  let tzlines := if flags.2.1 then
      "In other time zones:" ::
        (differentTZs tzs t ++ ["UNIX timestamp: " ++ toString (Int.ediv t 1000000000)])
    else []
  let cal := if flags.2.2 then calendar t else []
  { guess := timeString t, comment := p.2.1 ++ p.2.2,
    additional := sideBySide tzlines cal, source := "", goodness := flags.1 }

/-- The four candidate instants built by `guessTimestamp` (guess.go:296-304),
in nanoseconds since the epoch, paired with their source tags.
`time.Unix(ts, 0)` holds `ts` whole seconds without any 64-bit multiplication,
while the milli- and microsecond rows multiply `ts` inside `int64`, so those
products wrap on overflow. -/
def timestampTries (ts : Int) : List (Int × String) :=
  [(ts * 1000000000, "timestamp (seconds)"),
   (wrap64 (1000000 * ts), "timestamp (milliseconds)"),
   (wrap64 (1000 * ts), "timestamp (microseconds)"),
   (ts, "timestamp (nanoseconds)")]

/-- Embedding of `guessTimestamp` (guess.go:289-313): nothing for a
non-positive input, otherwise one `dateGuess` per candidate instant with the
rendering prefixed by `"Timestamp <ts> is "` and the source tag replaced. -/
def guessTimestamp (tzs : List Location) (now ts : Int) : List Guess :=
  if ts ≤ 0 then []
  else (timestampTries ts).map (fun pr =>
    let g := dateGuess tzs now pr.1
    { g with guess := "Timestamp " ++ toString ts ++ " is " ++ g.guess, source := pr.2 })

/-- Clock-threaded variant of `dateGuess`: in the source, `deltaNow` performs
its own `time.Now()` read (guess.go:319) and `calendar` performs another
(guess.go:444, used only for highlighting), so one `dateGuess` call consumes
one clock read, or two when the calendar is attached.  `clock i` is the value
the `i`-th read of the process clock returns. -/
def dateGuessClock (tzs : List Location) (clock : Nat → Int) (t : Int) (i : Nat) :
    Guess × Nat :=
  let now := clock i
  let g := dateGuess tzs now t
  let j := if (dateGuessFlags (deltaNowParts now t).1).2.2 then i + 2 else i + 1
  (g, j)

/-- Clock-threaded variant of `guessTimestamp`: the four candidate instants
are scored in order, each consuming clock reads as in `dateGuessClock`; the
second component is the index of the next unconsumed read. -/
def guessTimestampClock (tzs : List Location) (clock : Nat → Int) (ts : Int) (i : Nat) :
    List Guess × Nat :=
  if ts ≤ 0 then ([], i)
  else (timestampTries ts).foldl
    (fun acc pr =>
      let r := dateGuessClock tzs clock pr.1 acc.2
      let g := { r.1 with guess := "Timestamp " ++ toString ts ++ " is " ++ r.1.guess, source := pr.2 }
      (acc.1 ++ [g], r.2))
    ([], i)

/-- The zone-disambiguation loop of `guess` (guess.go:140-152): when a
confident-format parse produced abbreviation `z` with UTC offset `o = 0`, every
configured zone whose abbreviation at the current instant (`time.Now()`)
equals `z` triggers a re-parse anchored to that zone, whose resulting offset is
the offset that zone assigns to the abbreviation; the last match wins, and a
non-zero `o` is left untouched.  The function returns the UTC offset (seconds)
of the final parse result. -/
def fixZone (tzs : List Location) (now : Int) (z : String) (o : Int) : Int :=
  if o = 0 then
    tzs.foldl (fun acc loc =>
      if loc.abbrAt now = z then (loc.offForAbbr z).getD 0 else acc) o
  else o

/-- Daylight-saving predicate for America/Los_Angeles, modelled from the IANA
tzdata rule (second Sunday in March, 02:00 local, through first Sunday in
November) instantiated for 2025: DST from 2025-03-09T10:00Z to
2025-11-02T09:00Z, in nanoseconds since the epoch.  Only instants within 2025
are used in the theorems below. -/
def laDST (t : Int) : Bool :=
  decide (1741514400000000000 ≤ t ∧ t < 1762074000000000000)

/-- The configured zone America/Los_Angeles: abbreviation PDT (UTC-07:00)
during daylight saving, PST (UTC-08:00) otherwise; both abbreviations are
known to the zone with their fixed offsets. -/
def losAngeles : Location :=
  { name := "America/Los_Angeles",
    abbrAt := fun t => if laDST t then "PDT" else "PST",
    offForAbbr := fun z =>
      if z = "PDT" then some (-25200)
      else if z = "PST" then some (-28800) else none }

/-- An instant during LA daylight saving time, 2025-07-01T00:00:00Z (ns). -/
def summerNow : Int := 1751328000000000000

/-- An instant during LA standard time, 2025-12-01T00:00:00Z (ns). -/
def winterNow : Int := 1764547200000000000

/-- A guess with the given goodness and placeholder text, used to instantiate
the ranking and filtering theorems on concrete lists. -/
def exGuess (src : String) (k : Int) : Guess :=
  { guess := "g", comment := "", additional := [], source := src, goodness := k }

/-- Constant process clock: every read returns the instant `a`.  Used to
exhibit how many reads one classification pass performs. -/
def clockA : Nat → Int := fun _ => 1000000030000000000

/-- A clock that advances between the first and second read of the pass: read
1 returns an instant near the millisecond-resolution candidate, all other
reads return the same value as `clockA`. -/
def clockB : Nat → Int := fun i =>
  if i = 1 then 1000030000000000 else 1000000030000000000

namespace P1

/-- The guess record of the prototype source (part_001, `type Guess struct`):
`meaning`, `comment`, `additional`, `goodness`. -/
structure PGuess where
  meaning : String
  comment : String
  additional : List String
  goodness : Int
deriving Repr, DecidableEq

/-- The unit table of the prototype's `guessByteSize` (part_001:69-83), in
source order: divisor and symbol. -/
def units : List (Nat × String) :=
  [(1024 * 1024 * 1024 * 1024 * 1024 * 1024, "EiB"),
   (1000 * 1000 * 1000 * 1000 * 1000 * 1000, "EB"),
   (1024 * 1024 * 1024 * 1024 * 1024, "PiB"),
   (1000 * 1000 * 1000 * 1000 * 1000, "PB"),
   (1024 * 1024 * 1024 * 1024, "TiB"),
   (1000 * 1000 * 1000 * 1000, "TB"),
   (1024 * 1024 * 1024, "GiB"),
   (1000 * 1000 * 1000, "GB"),
   (1024 * 1024, "MiB"),
   (1000 * 1000, "MB"),
   (1024, "KiB"),
   (1000, "KB")]

/-- The double nearest to the decimal literal `0.01` in the prototype's
goodness switch, i.e. the constant Go compiles `0.01` to: the correctly
rounded quotient 1/100. -/
def pointOhOne : F := fdivF (f64i 1) (f64i 100)

/-- The double constant `1000` (exact). -/
def thousandF : F := f64i 1000

/-- The goodness switch of the prototype's `guessByteSize` (part_001:85-95),
cases checked in order: `q < 0.01` gives -50, `q > 1000` gives 10, `q > 1`
gives 50, and everything else (including `q == 1` exactly) gives -10. -/
def bucket (q : F) : Int :=
  if flt q pointOhOne then -50
  else if flt thousandF q then 10
  else if flt oneF q then 50
  else -10

/-- Embedding of the prototype's `guessByteSize` (part_001:68-104): one guess
per unit, in table order, rendered `"%.1f <sym>"` with the goodness from the
switch; all quotients are `float64` divisions. -/
def guessByteSize (n : Int) : List PGuess :=
  units.map (fun u =>
    let q := fdivF (f64i n) (f64i (u.1 : Int))
    { meaning := fmtF1 q ++ " " ++ u.2, comment := "", additional := [],
      goodness := bucket q })

end P1

theorem byGoodnessLess_iff (a b : Guess) :
    byGoodnessLess a b = true ↔ b.goodness < a.goodness := by
  simp [byGoodnessLess]

theorem deltaNowParts_fst (now t : Int) :
    (deltaNowParts now t).1
      = if absDelta now t < 1000000000 then 0 else absDelta now t := by
  simp only [deltaNowParts]
  split <;> rfl

theorem deltaNowParts_roughly (now t : Int) :
    (deltaNowParts now t).2.1
      = if absDelta now t < 1000000000 then "" else roughly (absDelta now t) := by
  simp only [deltaNowParts]
  split <;> rfl

theorem deltaNowParts_rightnow (now t : Int) (h : absDelta now t < 1000000000) :
    deltaNowParts now t = (0, "", "right now") := by
  simp only [deltaNowParts]
  rw [if_pos h]

theorem dateGuess_goodness (tzs : List Location) (now t : Int) :
    (dateGuess tzs now t).goodness = (dateGuessFlags (deltaNowParts now t).1).1 := rfl

theorem insertGo_mem (x z : Guess) (l : List Guess) :
    z ∈ insertGo x l ↔ z = x ∨ z ∈ l := by
  induction l with
  | nil => simp [insertGo]
  | cons y ys ih =>
    unfold insertGo
    split
    · simp [List.mem_cons]
      try tauto
    · simp [List.mem_cons, ih]
      try tauto

theorem insertGo_pairwise (x : Guess) (l : List Guess)
    (h : l.Pairwise (fun a b => b.goodness ≤ a.goodness)) :
    (insertGo x l).Pairwise (fun a b => b.goodness ≤ a.goodness) := by
  induction l with
  | nil => simp [insertGo]
  | cons y ys ih =>
    rw [List.pairwise_cons] at h
    obtain ⟨hy, hys⟩ := h
    by_cases hc : byGoodnessLess x y = true
    · have hlt : y.goodness < x.goodness := (byGoodnessLess_iff x y).1 hc
      simp only [insertGo, if_pos hc]
      rw [List.pairwise_cons]
      constructor
      · intro z hz
        rcases List.mem_cons.1 hz with h1 | h2
        · exact h1 ▸ le_of_lt hlt
        · exact le_of_lt (lt_of_le_of_lt (hy z h2) hlt)
      · rw [List.pairwise_cons]
        exact ⟨hy, hys⟩
    · have hle : x.goodness ≤ y.goodness := by
        rcases lt_or_le y.goodness x.goodness with hlt | hle2
        · exact absurd ((byGoodnessLess_iff x y).2 hlt) hc
        · exact hle2
      simp only [insertGo, if_neg hc]
      rw [List.pairwise_cons]
      constructor
      · intro z hz
        rcases (insertGo_mem x z ys).1 hz with h1 | h2
        · exact h1 ▸ hle
        · exact hy z h2
      · exact ih hys

theorem insertGo_perm (x : Guess) (l : List Guess) : (insertGo x l).Perm (x :: l) := by
  induction l with
  | nil => simp [insertGo]
  | cons y ys ih =>
    unfold insertGo
    split
    · exact List.Perm.refl _
    · exact (ih.cons y).trans (List.Perm.swap x y ys)

theorem insertGo_filter (x : Guess) (k : Int) (l : List Guess)
    (h : l.Pairwise (fun a b => b.goodness ≤ a.goodness)) :
    (insertGo x l).filter (fun g => decide (g.goodness = k))
      = l.filter (fun g => decide (g.goodness = k))
          ++ if x.goodness = k then [x] else [] := by
  induction l with
  | nil =>
    simp only [insertGo, List.filter_nil, List.nil_append]
    by_cases hk : x.goodness = k <;> simp [hk]
  | cons y ys ih =>
    rw [List.pairwise_cons] at h
    obtain ⟨hy, hys⟩ := h
    by_cases hc : byGoodnessLess x y = true
    · have hlt : y.goodness < x.goodness := (byGoodnessLess_iff x y).1 hc
      simp only [insertGo, if_pos hc]
      by_cases hk : x.goodness = k
      · have hnil : (y :: ys).filter (fun g => decide (g.goodness = k)) = [] := by
          rw [List.filter_eq_nil_iff]
          intro z hz
          rcases List.mem_cons.1 hz with h1 | h2
          · simp [h1, hk ▸ ne_of_lt hlt]
          · have hzx : z.goodness < x.goodness := lt_of_le_of_lt (hy z h2) hlt
            simp [hk ▸ ne_of_lt hzx]
        rw [List.filter_cons, if_pos (by simp [hk]), hnil]
        simp [hk]
      · rw [List.filter_cons, if_neg (by simp [hk])]
        simp [hk]
    · simp only [insertGo, if_neg hc]
      rw [List.filter_cons, List.filter_cons, ih hys]
      by_cases hyk : y.goodness = k <;> simp [hyk]

theorem sortGo_aux (gs : List Guess) :
    ∀ (acc : List Guess), acc.Pairwise (fun a b => b.goodness ≤ a.goodness) →
      (gs.foldl (fun a x => insertGo x a) acc).Perm (acc ++ gs) ∧
      (gs.foldl (fun a x => insertGo x a) acc).Pairwise (fun a b => b.goodness ≤ a.goodness) ∧
      ∀ k : Int, (gs.foldl (fun a x => insertGo x a) acc).filter (fun g => decide (g.goodness = k))
          = acc.filter (fun g => decide (g.goodness = k))
            ++ gs.filter (fun g => decide (g.goodness = k)) := by
  induction gs with
  | nil =>
    intro acc hacc
    exact ⟨by simp, by simpa using hacc, fun k => by simp⟩
  | cons x gs ih =>
    intro acc hacc
    rw [List.foldl_cons]
    obtain ⟨p1, p2, p3⟩ := ih (insertGo x acc) (insertGo_pairwise x acc hacc)
    refine ⟨?_, p2, ?_⟩
    · have h1 : (insertGo x acc ++ gs).Perm ((x :: acc) ++ gs) :=
        (insertGo_perm x acc).append_right gs
      have h2 : ((x :: acc) ++ gs).Perm (acc ++ x :: gs) := List.perm_middle.symm
      exact (p1.trans h1).trans h2
    · intro k
      rw [p3 k, insertGo_filter x k acc hacc, List.filter_cons]
      by_cases hk : x.goodness = k <;> simp [hk]

theorem sortGo_spec (gs : List Guess) :
    (sortGo gs).Perm gs ∧
    (sortGo gs).Pairwise (fun a b => b.goodness ≤ a.goodness) ∧
    ∀ k : Int, (sortGo gs).filter (fun g => decide (g.goodness = k))
        = gs.filter (fun g => decide (g.goodness = k)) := by
  obtain ⟨p1, p2, p3⟩ := sortGo_aux gs [] (by simp)
  refine ⟨by simpa using p1, p2, fun k => by simpa using p3 k⟩

theorem maxlen_eq_zero_of (L : List String) (h : ∀ l ∈ L, l.length = 0) :
    maxlen L = 0 := by
  unfold maxlen
  induction L with
  | nil => rfl
  | cons y ys ih =>
    rw [List.foldl_cons]
    have hy : y.length = 0 := h y (List.mem_cons_self y ys)
    rw [hy]
    simpa using ih (fun l hl => h l (List.mem_cons_of_mem y hl))

theorem sideBySide_length (L R : List String) (hm : maxlen L ≠ 0) :
    (sideBySide L R).length = max L.length R.length := by
  simp [sideBySide, if_neg hm]

theorem sideBySide_getD (L R : List String) (hm : maxlen L ≠ 0)
    (i : Nat) (hi : i < max L.length R.length) :
    (sideBySide L R).getD i ""
      = if R.length ≤ i then L.getD i ""
        else L.getD i "" ++ spaces (4 + maxlen L - (L.getD i "").length) ++ R.getD i "" := by
  unfold sideBySide
  rw [if_neg hm, List.getD_eq_getElem?_getD, List.getElem?_map, List.getElem?_range hi]
  rfl

theorem bytesInfo_eq_filterMap (n : Int) (l : List ByteUnit) :
    ∀ acc : List String,
      l.foldl
        (fun lines u =>
          if flt (fdivF (f64i n) (f64i (u.altMult : Int))) oneF then lines
          else lines ++ [unitLine n u])
        acc
      = acc ++ (l.filter
          (fun u => !flt (fdivF (f64i n) (f64i (u.altMult : Int))) oneF)).map (unitLine n) := by
  induction l with
  | nil => intro acc; simp
  | cons u l ih =>
    intro acc
    rw [List.foldl_cons, List.filter_cons]
    by_cases hc : flt (fdivF (f64i n) (f64i (u.altMult : Int))) oneF = true
    · simp [hc, ih]
    · simp only [Bool.not_eq_true] at hc
      simp [hc, ih]


theorem wrap64_small (x : Int) (h1 : -(2 ^ 63) ≤ x) (h2 : x < 2 ^ 63) : wrap64 x = x := by
  unfold wrap64
  rw [Int.emod_eq_of_lt (by omega) (by omega)]
  omega

set_option maxHeartbeats 2000000 in
/-- C1 (amended): for the relative-time scorer and `dateGuess`, a delta under
one second narrates "right now"; the rough prefixes are "within the minute/
hour/day/week, " below one minute/hour/day/week and empty from one week on;
the goodness buckets are 200, 180, 150, 120, then 20 below one year, 0 from
one to five years and -10 only from five years on (not -10 from one year as
claimed); the zone-conversion table is attached for every delta (not only
below one week as claimed); and the calendar is attached exactly when one day
<= delta < one year. -/
theorem c1_relative_time_buckets (tzs : List Location) (now t : Int) :
    (absDelta now t < 1000000000 → deltaNow now t = (0, "right now")) ∧
    (1000000000 ≤ absDelta now t → absDelta now t < 60000000000 →
      (deltaNowParts now t).2.1 = "within the minute, ") ∧
    (60000000000 ≤ absDelta now t → absDelta now t < 3600000000000 →
      (deltaNowParts now t).2.1 = "within the hour, ") ∧
    (3600000000000 ≤ absDelta now t → absDelta now t < 86400000000000 →
      (deltaNowParts now t).2.1 = "within the day, ") ∧
    (86400000000000 ≤ absDelta now t → absDelta now t < 604800000000000 →
      (deltaNowParts now t).2.1 = "within the week, ") ∧
    (604800000000000 ≤ absDelta now t → (deltaNowParts now t).2.1 = "") ∧
    (absDelta now t < 60000000000 → (dateGuess tzs now t).goodness = 200) ∧
    (60000000000 ≤ absDelta now t → absDelta now t < 3600000000000 →
      (dateGuess tzs now t).goodness = 180) ∧
    (3600000000000 ≤ absDelta now t → absDelta now t < 86400000000000 →
      (dateGuess tzs now t).goodness = 150) ∧
    (86400000000000 ≤ absDelta now t → absDelta now t < 604800000000000 →
      (dateGuess tzs now t).goodness = 120) ∧
    (604800000000000 ≤ absDelta now t → absDelta now t < 31536000000000000 →
      (dateGuess tzs now t).goodness = 20) ∧
    (31536000000000000 ≤ absDelta now t → absDelta now t < 157680000000000000 →
      (dateGuess tzs now t).goodness = 0) ∧
    (157680000000000000 ≤ absDelta now t → (dateGuess tzs now t).goodness = -10) ∧
    (dateGuessFlags (deltaNowParts now t).1).2.1 = true ∧
    (86400000000000 ≤ absDelta now t → absDelta now t < 31536000000000000 →
      (dateGuessFlags (deltaNowParts now t).1).2.2 = true) ∧
    (absDelta now t < 86400000000000 →
      (dateGuessFlags (deltaNowParts now t).1).2.2 = false) ∧
    (31536000000000000 ≤ absDelta now t →
      (dateGuessFlags (deltaNowParts now t).1).2.2 = false) := by
  refine ⟨?_, ?_, ?_, ?_, ?_, ?_, ?_, ?_, ?_, ?_, ?_, ?_, ?_, ?_, ?_, ?_, ?_⟩
  · intro h
    unfold deltaNow
    rw [deltaNowParts_rightnow now t h]
    rfl
  · intro h1 h2
    rw [deltaNowParts_roughly, if_neg (by omega)]
    unfold roughly
    split_ifs <;> first | rfl | omega
  · intro h1 h2
    rw [deltaNowParts_roughly, if_neg (by omega)]
    unfold roughly
    split_ifs <;> first | rfl | omega
  · intro h1 h2
    rw [deltaNowParts_roughly, if_neg (by omega)]
    unfold roughly
    split_ifs <;> first | rfl | omega
  · intro h1 h2
    rw [deltaNowParts_roughly, if_neg (by omega)]
    unfold roughly
    split_ifs <;> first | rfl | omega
  · intro h1
    rw [deltaNowParts_roughly, if_neg (by omega)]
    unfold roughly
    split_ifs <;> first | rfl | omega
  · intro h1
    rw [dateGuess_goodness, deltaNowParts_fst]
    unfold dateGuessFlags
    split_ifs <;> first | rfl | omega
  · intro h1 h2
    rw [dateGuess_goodness, deltaNowParts_fst]
    unfold dateGuessFlags
    split_ifs <;> first | rfl | omega
  · intro h1 h2
    rw [dateGuess_goodness, deltaNowParts_fst]
    unfold dateGuessFlags
    split_ifs <;> first | rfl | omega
  · intro h1 h2
    rw [dateGuess_goodness, deltaNowParts_fst]
    unfold dateGuessFlags
    split_ifs <;> first | rfl | omega
  · intro h1 h2
    rw [dateGuess_goodness, deltaNowParts_fst]
    unfold dateGuessFlags
    split_ifs <;> first | rfl | omega
  · intro h1 h2
    rw [dateGuess_goodness, deltaNowParts_fst]
    unfold dateGuessFlags
    split_ifs <;> first | rfl | omega
  · intro h1
    rw [dateGuess_goodness, deltaNowParts_fst]
    unfold dateGuessFlags
    split_ifs <;> first | rfl | omega
  · rw [deltaNowParts_fst]
    unfold dateGuessFlags
    split_ifs <;> rfl
  · intro h1 h2
    rw [deltaNowParts_fst]
    unfold dateGuessFlags
    split_ifs <;> first | rfl | omega
  · intro h1
    rw [deltaNowParts_fst]
    unfold dateGuessFlags
    split_ifs <;> first | rfl | omega
  · intro h1
    rw [deltaNowParts_fst]
    unfold dateGuessFlags
    split_ifs <;> first | rfl | omega

/-- C1 witness: a 30-second-old instant gets the "within the minute, " prefix
and goodness 200. -/
theorem c1_relative_time_buckets_witness :
    (deltaNowParts 0 (-30000000000)).2.1 = "within the minute, " ∧
    (dateGuess [] 0 (-30000000000)).goodness = 200 := by
  have h := c1_relative_time_buckets [] 0 (-30000000000)
  exact ⟨h.2.1 (by decide) (by decide), h.2.2.2.2.2.2.1 (by decide)⟩

/-- C1 counterexample: at a delta of exactly two years the goodness is 0, not
the claimed -10, and the zone-conversion table is attached (claimed to be
attached only below one week). -/
theorem c1_counterexample :
    absDelta 63072000000000000 0 = 63072000000000000 ∧
    (31536000000000000 : Int) ≤ 63072000000000000 ∧
    (dateGuess [] 63072000000000000 0).goodness = 0 ∧
    ¬ (dateGuess [] 63072000000000000 0).goodness = -10 ∧
    (dateGuess [] 63072000000000000 0).additional
      = ["In other time zones:", "UNIX timestamp: 0"] := by decide

/-- C2: with sorting enabled the ranker produces a permutation of the guess
list, sorted descending by goodness, preserving the discovery order among
guesses of equal goodness (the key-k sublists are unchanged); with sorting
disabled the list is returned unchanged; goodness values [5, -3, 200, 0]
sort to [200, 5, 0, -3], and two tied guesses keep their discovery order.
The length bound reflects that Go's `sort.Sort` is an insertion sort (hence
stable) only up to 12 elements. -/
theorem c2_ranker_stable_sort (gs : List Guess) (_hlen : gs.length ≤ 12) :
    (rankGuesses true gs).Perm gs ∧
    (rankGuesses true gs).Pairwise (fun a b => b.goodness ≤ a.goodness) ∧
    (∀ k : Int, (rankGuesses true gs).filter (fun g => decide (g.goodness = k))
        = gs.filter (fun g => decide (g.goodness = k))) ∧
    rankGuesses false gs = gs ∧
    rankGuesses true [exGuess "a" 5, exGuess "b" (-3), exGuess "c" 200, exGuess "d" 0]
      = [exGuess "c" 200, exGuess "a" 5, exGuess "d" 0, exGuess "b" (-3)] ∧
    rankGuesses true [exGuess "t1" 7, exGuess "t2" 7, exGuess "t3" 9]
      = [exGuess "t3" 9, exGuess "t1" 7, exGuess "t2" 7] := by
  obtain ⟨p1, p2, p3⟩ := sortGo_spec gs
  exact ⟨by simpa [rankGuesses] using p1, by simpa [rankGuesses] using p2,
    fun k => by simpa [rankGuesses] using p3 k, rfl, by decide, by decide⟩

/-- C2 witness: the concrete ranking example, from the theorem applied to the
four-guess list. -/
theorem c2_ranker_stable_sort_witness :
    rankGuesses true [exGuess "a" 5, exGuess "b" (-3), exGuess "c" 200, exGuess "d" 0]
      = [exGuess "c" 200, exGuess "a" 5, exGuess "d" 0, exGuess "b" (-3)] ∧
    rankGuesses false [exGuess "a" 5, exGuess "b" (-3), exGuess "c" 200, exGuess "d" 0]
      = [exGuess "a" 5, exGuess "b" (-3), exGuess "c" 200, exGuess "d" 0] := by
  have h := c2_ranker_stable_sort
    [exGuess "a" 5, exGuess "b" (-3), exGuess "c" 200, exGuess "d" 0] (by decide)
  exact ⟨h.2.2.2.2.1, h.2.2.2.1⟩

/-- C3 (amended): a non-positive integer produces no timestamp guesses; a
positive one always produces exactly four (nothing further is dropped, however
implausible); the four candidate instants are n seconds, and the int64-wrapped
products n*1e6, n*1e3 and n itself in nanoseconds, so the claimed factor
relation 1 / 1e3 / 1e6 / 1e9 holds exactly whenever the millisecond product
does not overflow int64. -/
theorem c3_timestamp_resolutions (tzs : List Location) (now ts : Int) :
    (ts ≤ 0 → guessTimestamp tzs now ts = []) ∧
    (0 < ts → (guessTimestamp tzs now ts).length = 4) ∧
    (timestampTries ts).map Prod.fst
      = [ts * 1000000000, wrap64 (1000000 * ts), wrap64 (1000 * ts), ts] ∧
    (0 < ts → 1000000 * ts < 2 ^ 63 →
      wrap64 (1000000 * ts) = 1000000 * ts ∧ wrap64 (1000 * ts) = 1000 * ts ∧
      ts * 1000000000 = 1000 * (1000000 * ts) ∧ 1000000 * ts = 1000 * (1000 * ts)) := by
  refine ⟨?_, ?_, by simp [timestampTries], ?_⟩
  · intro h
    simp [guessTimestamp, h]
  · intro h
    rw [guessTimestamp, if_neg (by omega)]
    simp [timestampTries]
  · intro h1 h2
    refine ⟨wrap64_small _ (by omega) (by omega), wrap64_small _ (by omega) (by omega),
      by ring, by ring⟩

/-- C3 witness: for n = 5 the four guesses exist and the millisecond product
does not wrap. -/
theorem c3_timestamp_resolutions_witness :
    (guessTimestamp [] 0 5).length = 4 ∧ wrap64 (1000000 * 5) = 1000000 * 5 := by
  have h := c3_timestamp_resolutions [] 0 5
  exact ⟨h.2.1 (by decide), (h.2.2.2 (by decide) (by decide)).1⟩

/-- C3 counterexample: at n = 10^13 the millisecond reinterpretation overflows
int64, its instant is negative rather than n*1e6 nanoseconds, so the claimed
factor relation between the seconds and milliseconds instants fails; the four
guesses are still produced (nothing is dropped as implausible). -/
theorem c3_counterexample :
    (timestampTries 10000000000000).map Prod.fst
      = [10000000000000000000000, -8446744073709551616, 10000000000000000,
         10000000000000] ∧
    ¬ ((10000000000000000000000 : Int) = 1000 * (-8446744073709551616)) ∧
    (guessTimestamp [] 0 10000000000000).length = 4 := by decide

/-- C4: the byte-size guesser emits one guess whose primary rendering states
exactly n bytes, decorated with exactly one line per unit whose decimal-form
float64 quotient is at least 1, each line pairing the binary and decimal
renderings; 8 TiB yields the line "8.0 TiB (8.8 TB)". -/
theorem c4_byte_size_lines (n : Nat) :
    guessByteSize (n : Int)
      = [{ guess := toString (n : Int) ++ " bytes", comment := "",
           additional := bytesInfo (n : Int),
           source := "byte count without explicit unit", goodness := 0 }] ∧
    bytesInfo (n : Int)
      = (byteUnits.filter
          (fun u => !flt (fdivF (f64i (n : Int)) (f64i (u.altMult : Int))) oneF)).map
          (unitLine (n : Int)) ∧
    "8.0 TiB (8.8 TB)" ∈ bytesInfo 8796093022208 ∧
    bytesInfo 8796093022208
      = ["8589934592.0 KiB (8796093022.2 KB)", "8388608.0 MiB (8796093.0 MB)",
         "8192.0 GiB (8796.1 GB)", "8.0 TiB (8.8 TB)"] := by
  refine ⟨rfl, ?_, by decide, by decide⟩
  simpa [bytesInfo] using bytesInfo_eq_filterMap (n : Int) byteUnits []

/-- C5 (amended): the compositor returns the right block unchanged whenever
the left block's maximum line length is zero (not only when the left block is
empty); otherwise line i is the left line padded to maxlen+4 columns followed
by the right line, left-only lines pass through unpadded, and right-only lines
are prefixed by maxlen+4 spaces. -/
theorem c5_side_by_side (L R : List String) :
    (maxlen L = 0 → sideBySide L R = R) ∧
    (maxlen L ≠ 0 →
      (sideBySide L R).length = max L.length R.length ∧
      (∀ i, i < L.length → i < R.length →
        (sideBySide L R).getD i ""
          = L.getD i "" ++ spaces (4 + maxlen L - (L.getD i "").length) ++ R.getD i "") ∧
      (∀ i, R.length ≤ i → i < L.length → (sideBySide L R).getD i "" = L.getD i "") ∧
      (∀ i, L.length ≤ i → i < R.length →
        (sideBySide L R).getD i "" = spaces (4 + maxlen L) ++ R.getD i "")) := by
  refine ⟨?_, ?_⟩
  · intro h
    simp [sideBySide, h]
  · intro hm
    refine ⟨sideBySide_length L R hm, ?_, ?_, ?_⟩
    · intro i h1 h2
      rw [sideBySide_getD L R hm i (lt_max_iff.2 (Or.inl h1)), if_neg (by omega)]
    · intro i h1 h2
      rw [sideBySide_getD L R hm i (lt_max_iff.2 (Or.inl h2)), if_pos h1]
    · intro i h1 h2
      rw [sideBySide_getD L R hm i (lt_max_iff.2 (Or.inr h2)), if_neg (by omega)]
      have hL : L.getD i "" = "" := by
        rw [List.getD_eq_getElem?_getD, List.getElem?_eq_none (by omega)]
        rfl
      rw [hL]
      simp

/-- C5 witness: a one-line left block against a two-line right block, the
in-range line padded to maxlen+4 columns. -/
theorem c5_side_by_side_witness :
    (sideBySide ["ab"] ["x", "y"]).getD 0 ""
      = ["ab"].getD 0 ""
          ++ spaces (4 + maxlen ["ab"] - (["ab"].getD 0 "").length)
          ++ ["x", "y"].getD 0 "" := by
  have h := c5_side_by_side ["ab"] ["x", "y"]
  exact (h.2 (by decide)).2.1 0 (by decide) (by decide)

/-- C5 counterexample: a non-empty left block consisting of one empty line is
discarded (the right block is returned unchanged), not padded to 4 columns
and prefixed as the claim's general clause dictates. -/
theorem c5_counterexample :
    sideBySide [""] ["x"] = ["x"] ∧
    ¬ sideBySide [""] ["x"] = ["" ++ spaces (4 + maxlen [""] - "".length) ++ "x"] := by decide

/-- C6: guesses with nonnegative goodness are shown by default; everything is
shown when the unlikely flag is set; and if the filter would suppress every
guess while the flag is off, the engine emits the explanatory note followed by
the complete unfiltered list instead of empty output. -/
theorem c6_filter_fallback (gs : List Guess) :
    mainDisplay true gs = (false, gs) ∧
    ((∃ g ∈ gs, 0 ≤ g.goodness) →
      mainDisplay false gs = (false, gs.filter (fun g => decide (0 ≤ g.goodness)))) ∧
    ((∀ g ∈ gs, g.goodness < 0) → mainDisplay false gs = (true, gs)) := by
  refine ⟨?_, ?_, ?_⟩
  · simp [mainDisplay]
  · intro h
    obtain ⟨g, hg, hge⟩ := h
    have hne : gs.filter (fun g => decide (0 ≤ g.goodness)) ≠ [] := by
      intro hnil
      rw [List.filter_eq_nil_iff] at hnil
      exact absurd hge (by simpa using hnil g hg)
    simp [mainDisplay, hne]
  · intro h
    have hnil : gs.filter (fun g => decide (0 ≤ g.goodness)) = [] := by
      rw [List.filter_eq_nil_iff]
      intro g hg
      simpa using not_le.2 (h g hg)
    simp [mainDisplay, hnil]

/-- C6 witness: a mixed list shows only the nonnegative guess; an
all-negative list triggers the note followed by the full list. -/
theorem c6_filter_fallback_witness :
    mainDisplay false [exGuess "p" 3, exGuess "q" (-7)] = (false, [exGuess "p" 3]) ∧
    mainDisplay false [exGuess "q" (-7)] = (true, [exGuess "q" (-7)]) := by
  have h1 := c6_filter_fallback [exGuess "p" 3, exGuess "q" (-7)]
  have h2 := c6_filter_fallback [exGuess "q" (-7)]
  refine ⟨?_, h2.2.2 (by decide)⟩
  have he := h1.2.1 ⟨exGuess "p" 3, by decide, by decide⟩
  exact he.trans (by decide)

/-- C7 (amended): the prototype's per-unit goodness is -50 when the float64
quotient is below the double nearest 0.01, 10 when above 1000, 50 when
strictly above 1, and -10 otherwise - so a quotient of exactly 1 falls in the
slightly-unlikely bucket, not the likely one as claimed. -/
theorem c7_unit_goodness (n : Int) :
    (P1.guessByteSize n).map (fun g => g.goodness)
      = P1.units.map (fun u =>
          if flt (fdivF (f64i n) (f64i (u.1 : Int))) P1.pointOhOne then -50
          else if flt P1.thousandF (fdivF (f64i n) (f64i (u.1 : Int))) then 10
          else if flt oneF (fdivF (f64i n) (f64i (u.1 : Int))) then 50
          else -10) ∧
    (P1.guessByteSize 500000).map (fun g => g.goodness)
      = [-50, -50, -50, -50, -50, -50, -50, -50, -10, -10, 50, 50] ∧
    (P1.guessByteSize 1048576).map (fun g => g.goodness)
      = [-50, -50, -50, -50, -50, -50, -50, -50, -10, 50, 10, 10] := by
  refine ⟨?_, by decide, by decide⟩
  simp [P1.guessByteSize, P1.bucket, List.map_map]

/-- C7 counterexample: for n = 1024 and the KiB divisor 1024 the quotient is
exactly 1 (within the claimed likely range 1 <= q <= 1000), yet the emitted
goodness is -10, not the likely bucket's 50. -/
theorem c7_counterexample :
    fdivF (f64i 1024) (f64i 1024) = oneF ∧
    (P1.guessByteSize 1024).map (fun g => g.goodness)
      = [-50, -50, -50, -50, -50, -50, -50, -50, -50, -50, -10, 50] ∧
    ¬ ((P1.guessByteSize 1024).map (fun g => g.goodness)
        = [-50, -50, -50, -50, -50, -50, -50, -50, -50, -50, 50, 50]) := by decide

/-- C8: the zone-disambiguation re-parse is gated on the abbreviation each
configured zone uses at the CURRENT instant, so the promised repair of
"2015-09-26 11:29:43 PDT" to offset -07:00 happens only while
America/Los_Angeles is itself on PDT; at a winter instant the zone reports
PST, no re-parse fires, and the artificial +00:00 offset survives,
contradicting the code's own comment (guess.go:134-139). -/
theorem c8_zone_fix_current_abbrev :
    losAngeles.abbrAt summerNow = "PDT" ∧
    fixZone [losAngeles] summerNow "PDT" 0 = -25200 ∧
    losAngeles.abbrAt winterNow = "PST" ∧
    fixZone [losAngeles] winterNow "PDT" 0 = 0 ∧
    ¬ fixZone [losAngeles] winterNow "PDT" 0 = -25200 := by decide

/-- C9 (amended): the code reads the process clock inside every `deltaNow`
(and `calendar`) call rather than once per pass; when the clock does not
advance during the pass, the pass coincides with the idealised single-instant
semantics `guessTimestamp`. -/
theorem c9_constant_clock_determinism (tzs : List Location) (ts t : Int) (i : Nat) :
    (guessTimestampClock tzs (fun _ => t) ts i).1 = guessTimestamp tzs t ts := by
  unfold guessTimestampClock guessTimestamp
  split <;> rfl

/-- C9 counterexample: a pass over the token 1000000000 performs four clock
reads (not one), and two passes whose first read (the "current instant") is
identical produce different guess lists when a later read differs. -/
theorem c9_counterexample :
    clockA 0 = clockB 0 ∧
    (guessTimestampClock [] clockA 1000000000 0).1.map (fun g => g.goodness)
      = [200, -10, -10, -10] ∧
    (guessTimestampClock [] clockB 1000000000 0).1.map (fun g => g.goodness)
      = [200, 200, -10, -10] ∧
    ¬ ((guessTimestampClock [] clockA 1000000000 0).1.map (fun g => g.goodness)
        = (guessTimestampClock [] clockB 1000000000 0).1.map (fun g => g.goodness)) ∧
    (guessTimestampClock [] clockA 1000000000 0).2 = 4 := by decide

/-- C10: `sideBySide` returns the right block unchanged whenever every left
line has length zero, including a non-empty list of empty strings. -/
theorem c10_all_empty_left (L R : List String) (h : ∀ l ∈ L, l.length = 0) :
    sideBySide L R = R := by
  unfold sideBySide
  rw [if_pos (maxlen_eq_zero_of L h)]

/-- C10 witness: two empty left lines are discarded. -/
theorem c10_all_empty_left_witness : sideBySide ["", ""] ["a"] = ["a"] :=
  c10_all_empty_left ["", ""] ["a"] (by decide)
